import Mathlib

/-!
Verification of the PolitexProg/proejcts-set repository: the Task Tracker
store (src/Task Tracker Python/main.py) and the GitHub user-activity event
formatter (src/github-user-activity/main.py), shallowly embedded in Lean.
-/

/-- JSON values, the result of a successful `json.load`.  Objects are
association lists; `json.load` produces Python dicts, whose keys are unique,
so lookup by first occurrence agrees with dict access. -/
inductive Json where
  | null : Json
  | bool : Bool → Json
  | num : Int → Json
  | str : String → Json
  | arr : List Json → Json
  | obj : List (String × Json) → Json


/-- Python truthiness of a JSON value (`if not x`). -/
def Json.truthy : Json → Bool
  | .null => false
  | .bool b => b
  | .num n => n != 0
  | .str s => !s.isEmpty
  | .arr xs => !xs.isEmpty
  | .obj fs => !fs.isEmpty

/-- Dict access `d[k]` / `d.get k` on an object's fields. -/
def Json.getKey : Json → String → Option Json
  | .obj fields, k => fields.lookup k
  | _, _ => none

/-- The exceptions the two programs' code paths can raise and catch. -/
inductive PyError where
  | keyError : PyError
  | typeError : PyError
  | attributeError : PyError

/-- Python `str.strip()` for ASCII whitespace: drop whitespace characters
from both ends of the string (Python also strips a few more Unicode space
characters; no string the programs handle contains those). -/
def pyStrip (s : String) : String :=
  ⟨(s.data.dropWhile Char.isWhitespace).rdropWhile Char.isWhitespace⟩

namespace TaskStore

/-- A Task as the Python class holds it: `description` and `completed` are
whatever values `Task.from_dict` read from the file (the constructor and
`add_task` put a string and a bool there, but `from_dict` does not check). -/
structure Task where
  description : Json
  completed : Json


/-- Embeds `Task.to_dict`. -/
def Task.to_dict (t : Task) : Json :=
  .obj [("description", t.description), ("completed", t.completed)]

/-- Embeds `Task.from_dict`: `data["description"]` raises `KeyError` when the key is
missing and `TypeError` when `data` is not a dict; `data.get("completed",
False)` defaults a missing `completed` to `False`. -/
def Task.from_dict (data : Json) : Except PyError Task :=
  match data with
  | .obj fields =>
    match fields.lookup "description" with
    | some d => .ok ⟨d, (fields.lookup "completed").getD (.bool false)⟩
    | none => .error .keyError
  | _ => .error .typeError

/-- Embeds `[Task.from_dict(item) for item in data]`: the first exception aborts the
whole comprehension. -/
def fromDictList : List Json → Except PyError (List Task)
  | [] => .ok []
  | item :: rest =>
    match Task.from_dict item with
    | .error e => .error e
    | .ok t =>
      match fromDictList rest with
      | .error e => .error e
      | .ok ts => .ok (t :: ts)

/-- Bytes stored in a regular file, abstracted at the granularity `json.load`
observes: either bytes that fail to parse as JSON (`raw`, e.g. the empty
file or `not a json array` without quotes), or bytes whose parse is `j`. -/
inductive Content where
  | raw : String → Content
  | json : Json → Content


/-- State of one path on disk. -/
inductive PathState where
  | absent : PathState
  | dir : PathState
  | file : Content → PathState


/-- The slice of the file system the tracker touches: the store file
(`tasks.json`), its sibling backup path (`tasks.bak`), whether the store's
parent directory exists, and whether the backup path is writable (`False`
models `shutil.copy2` failing with permissions / disk full).  `saveCalls`
counts the calls to `save_tasks`, to observe "calls Save exactly once". -/
structure FS where
  parentExists : Bool
  store : PathState
  backup : PathState
  backupWritable : Bool
  saveCalls : Nat


/-- Embeds `Path.with_suffix('.bak')` on a plain file name: replace the final
extension by `.bak`, appending it when the name has none.  (Pathlib's full
treatment of directories and names whose only dot is the leading one is not
modelled; the program only ever applies this to `tasks.json`.) -/
def withSuffixBak (name : String) : String :=
  let r := name.data.reverse
  let stem :=
    if r.contains '.' then ((r.dropWhile fun c => c ≠ '.').drop 1).reverse
    else name.data
  ⟨stem ++ ".bak".data⟩

/-- Embeds `TaskTracker.save_tasks`, instrumented with the call counter.  `tasks` is
`none` when `self.tasks` is not yet assigned (during `load_tasks`, before
`__init__` binds it): `open(file, "w")` already created/truncated the file,
then evaluating `self.tasks` raises `AttributeError`, which the
`except Exception` arm catches — leaving a zero-byte file behind.  When the
path is a directory or the parent is missing, `open` itself raises an
`IOError` which the first arm catches, leaving everything unchanged. -/
def save_tasks (fs : FS) (tasks : Option (List Task)) : FS :=
  let fs := { fs with saveCalls := fs.saveCalls + 1 }
  match fs.store, fs.parentExists with
  | .dir, _ => fs
  | _, false => fs
  | _, true =>
    match tasks with
    | none => { fs with store := .file (.raw "") }
    | some ts => { fs with store := .file (.json (.arr (ts.map Task.to_dict))) }

/-- Embeds `TaskTracker.create_backup`: `shutil.copy2` copies the store file
byte-for-byte onto the backup path (overwriting a prior backup); any failure
is caught and reported, leaving the file system unchanged. -/
def create_backup (fs : FS) : FS :=
  match fs.store, fs.backupWritable with
  | .file c, true => { fs with backup := .file c }
  | _, _ => fs

/-- Embeds `TaskTracker.load_tasks`, run by `__init__` before `self.tasks` exists
(so its `save_tasks()` calls see `tasks = none`).  Returns the in-memory
list together with the file system left behind. -/
def load_tasks (fs : FS) : List Task × FS :=
  match fs.store with
  | .absent =>
    let fs := { fs with parentExists := true }
    ([], save_tasks fs none)
  | .dir =>
    ([], save_tasks fs none)
  | .file c =>
    match c with
    | .raw _ => ([], create_backup fs)
    | .json j =>
      match j with
      | .arr items =>
        match fromDictList items with
        | .ok ts => (ts, fs)
        | .error _ => ([], create_backup fs)
      | _ => ([], create_backup fs)

/-- The tracker's state after `__init__`: the in-memory list and the disk. -/
structure Tracker where
  tasks : List Task
  fs : FS


/-- Embeds `TaskTracker.__init__` (with the store path abstracted into `fs`). -/
def init (fs : FS) : Tracker :=
  let (ts, fs) := load_tasks fs
  ⟨ts, fs⟩

/-- Embeds `TaskTracker.add_task`: reject a description that is empty after
`strip()`; otherwise append `Task(description.strip())` and save. -/
def add_task (st : Tracker) (description : String) : Tracker :=
  if pyStrip description = "" then st
  else
    let ts := st.tasks ++ [⟨.str (pyStrip description), .bool false⟩]
    ⟨ts, save_tasks st.fs (some ts)⟩

/-- Embeds `TaskTracker.complete_task`: reject when the list is empty or the index
is outside `[1, len]`; otherwise set `tasks[i-1].completed = True` and save. -/
def complete_task (st : Tracker) (i : Int) : Tracker :=
  if st.tasks.isEmpty then st
  else if i < 1 ∨ i > st.tasks.length then st
  else
    let k := i.toNat - 1
    let old := st.tasks.getD k ⟨.null, .null⟩
    let ts := st.tasks.set k ⟨old.description, .bool true⟩
    ⟨ts, save_tasks st.fs (some ts)⟩

/-- Embeds `TaskTracker.remove_task`: reject when the list is empty or the index is
outside `[1, len]`; otherwise `pop(i-1)` and save. -/
def remove_task (st : Tracker) (i : Int) : Tracker :=
  if st.tasks.isEmpty then st
  else if i < 1 ∨ i > st.tasks.length then st
  else
    let ts := st.tasks.eraseIdx (i.toNat - 1)
    ⟨ts, save_tasks st.fs (some ts)⟩

/-- Embeds `TaskTracker.in_progress_tasks`, as the sequence of `(index, task)` rows
it prints: `enumerate(self.tasks, 1)` filtered by `not task.completed`
(Python truthiness).  On an empty list the method prints "No tasks found"
and produces no rows. -/
def in_progress_tasks (tasks : List Task) : List (Nat × Task) :=
  (tasks.enumFrom 1).filter fun p => !p.2.completed.truthy

end TaskStore

namespace GithubActivity

/-- Python `d[k]`: the value on a present key, `KeyError` on a missing key,
`TypeError` when the subscripted value is not a dict. -/
def getItem (j : Json) (k : String) : Except PyError Json :=
  match j with
  | .obj fields =>
    match fields.lookup k with
    | some v => .ok v
    | none => .error .keyError
  | _ => .error .typeError

/-- Python `x == lit` comparing a JSON value against a string literal. -/
def eqStr (j : Json) (lit : String) : Bool :=
  match j with
  | .str s => s == lit
  | _ => false

/-- Python `event.get("type") == lit`: `dict.get` yields `None` on a missing
key, and `None == lit` is `False`. -/
def optEqStr (o : Option Json) (lit : String) : Bool :=
  match o with
  | some j => eqStr j lit
  | none => false

/-- Python `str()` of a JSON value, as the formatter's f-strings use it: the
repo names interpolated are strings and the issue/PR numbers integers.  A
container would render via Python `repr`; no formatted line interpolates
one, so containers get a placeholder here. -/
def pyStr : Json → String
  | .str s => s
  | .num n => toString n
  | .bool b => if b then "True" else "False"
  | .null => "None"
  | .arr _ => "<list>"
  | .obj _ => "<dict>"

/-- Python `str.capitalize()`: first character upper-cased, the rest
lower-cased. -/
def pyCapitalize (s : String) : String :=
  match s.data with
  | [] => ""
  | c :: cs => ⟨c.toUpper :: cs.map Char.toLower⟩

/-- Embeds `action.capitalize()` on a JSON value: `AttributeError` unless the value
is a string. -/
def capitalizeVal : Json → Except PyError String
  | .str s => .ok (pyCapitalize s)
  | _ => .error .attributeError

/-- Embeds `format_event`: turn one event record into its display line, following
the source's branch order and field accesses; a raised `KeyError` /
`TypeError` / `AttributeError` propagates out (nothing in `main` catches
it). -/
def format_event (event : Json) : Except PyError String :=
  let event_type := event.getKey "type"
  match getItem event "repo" with
  | .error e => .error e
  | .ok repo =>
    match getItem repo "name" with
    | .error e => .error e
    | .ok rn =>
      let repo_name := pyStr rn
      if optEqStr event_type "PushEvent" then
        .ok ("Pushed to " ++ repo_name)
      else if optEqStr event_type "IssuesEvent" then
        match getItem event "payload" with
        | .error e => .error e
        | .ok payload =>
          match getItem payload "action" with
          | .error e => .error e
          | .ok action =>
            match getItem payload "issue" with
            | .error e => .error e
            | .ok issue =>
              match getItem issue "number" with
              | .error e => .error e
              | .ok issue_number =>
                if eqStr action "opened" then
                  .ok ("Opened issue #" ++ pyStr issue_number ++ " in " ++ repo_name)
                else if eqStr action "closed" then
                  .ok ("Closed issue #" ++ pyStr issue_number ++ " in " ++ repo_name)
                else
                  match capitalizeVal action with
                  | .error e => .error e
                  | .ok cap =>
                    .ok (cap ++ " issue #" ++ pyStr issue_number ++ " in " ++ repo_name)
      else if optEqStr event_type "IssueCommentEvent" then
        match getItem event "payload" with
        | .error e => .error e
        | .ok payload =>
          match getItem payload "issue" with
          | .error e => .error e
          | .ok issue =>
            match getItem issue "number" with
            | .error e => .error e
            | .ok issue_number =>
              .ok ("Commented on issue #" ++ pyStr issue_number ++ " in " ++ repo_name)
      else if optEqStr event_type "ForkEvent" then
        .ok ("Forked " ++ repo_name)
      else if optEqStr event_type "WatchEvent" then
        .ok ("Starred " ++ repo_name)
      else if optEqStr event_type "PullRequestEvent" then
        match getItem event "payload" with
        | .error e => .error e
        | .ok payload =>
          match getItem payload "action" with
          | .error e => .error e
          | .ok action =>
            match getItem payload "number" with
            | .error e => .error e
            | .ok pr_number =>
              match capitalizeVal action with
              | .error e => .error e
              | .ok cap =>
                .ok (cap ++ " pull request #" ++ pyStr pr_number ++ " in " ++ repo_name)
      else
        .ok ("Did something in " ++ repo_name)

/-- The display loop in `main`: `for event in data[:10]` formats each of the
first at-most-10 fetched events. -/
def render_events (data : List Json) : List (Except PyError String) :=
  (data.take 10).map format_event

/-- Sample events used by the concrete witness below. -/
def sampleRepo : Json := .obj [("name", .str "octo/hello")]

def pushEv : Json := .obj [("type", .str "PushEvent"), ("repo", sampleRepo)]

def issuesEv : Json :=
  .obj [("type", .str "IssuesEvent"), ("repo", sampleRepo),
        ("payload", .obj [("action", .str "reopened"),
                          ("issue", .obj [("number", .num 7)])])]

def commentEv : Json :=
  .obj [("type", .str "IssueCommentEvent"), ("repo", sampleRepo),
        ("payload", .obj [("issue", .obj [("number", .num 3)])])]

def forkEv : Json := .obj [("type", .str "ForkEvent"), ("repo", sampleRepo)]

def watchEv : Json := .obj [("type", .str "WatchEvent"), ("repo", sampleRepo)]

def prEv : Json :=
  .obj [("type", .str "PullRequestEvent"), ("repo", sampleRepo),
        ("payload", .obj [("action", .str "opened"), ("number", .num 5)])]

def unknownEv : Json := .obj [("type", .str "ReleaseEvent"), ("repo", sampleRepo)]

end GithubActivity

namespace TaskStore

/-- Statement-side predicate, from the spec's taxonomy: contents that are a
corruption (bytes that fail to parse) or a format violation (a parse whose
top-level shape is not a sequence). -/
def Content.badShape : Content → Bool
  | .raw _ => true
  | .json (.arr _) => false
  | .json _ => true

/-- Spec-side invariant for C6: a stored description is a non-empty string
with no leading or trailing whitespace (stripping it changes nothing). -/
def goodDescription (t : Task) : Bool :=
  match t.description with
  | .str s => !s.isEmpty && (pyStrip s == s)
  | _ => false

/-- A two-task sample state used by concrete witnesses below. -/
def sampleTracker : Tracker :=
  ⟨[⟨.str "a", .bool false⟩, ⟨.str "b", .bool true⟩],
   ⟨true, .file (.json (.arr [])), .absent, true, 0⟩⟩

/-- Statement-side test for C9: the completed flag is the boolean `false`. -/
def isFalseFlag : Json → Bool
  | .bool false => true
  | _ => false

theorem withSuffixBak_tasks_json : withSuffixBak "tasks.json" = "tasks.bak" := by
  decide

theorem saveCalls_save_tasks (fs : FS) (o : Option (List Task)) :
    (save_tasks fs o).saveCalls = fs.saveCalls + 1 := by
  obtain ⟨pe, store, bk, bw, sc⟩ := fs
  cases store <;> cases pe <;> cases o <;> rfl

/-- C1 (code bug): constructing the tracker with the store file absent does
create the parent directories and start with an empty in-memory list, but
the initial snapshot written is a zero-byte file, not the empty JSON list:
`load_tasks` calls `save_tasks` before `__init__` has assigned `self.tasks`,
so `open(..., "w")` truncates the file and the `AttributeError` raised while
building the JSON payload is swallowed by `except Exception`. -/
theorem load_absent_store_initializes_empty :
    load_tasks ⟨false, .absent, .absent, true, 0⟩ =
      ([], ⟨true, .file (.raw ""), .absent, true, 1⟩) ∧
    (.raw "" : Content) ≠ .json (.arr []) := by
  refine ⟨rfl, fun h => ?_⟩
  cases h

/-- C2: loading a store file whose content fails to parse or parses to a
non-sequence yields an empty in-memory list, copies the original content
byte-for-byte to the sibling `.bak` path, leaves the original file in
place, and returns normally rather than raising. -/
theorem load_bad_content_resets_and_backs_up (fs : FS) (c : Content)
    (hstore : fs.store = .file c) (hbad : c.badShape = true) :
    (load_tasks fs).1 = [] ∧
    (fs.backupWritable = true →
      (load_tasks fs).2 = { fs with backup := .file c }) ∧
    (fs.backupWritable = false → (load_tasks fs).2 = fs) ∧
    (load_tasks fs).2.store = .file c ∧
    withSuffixBak "tasks.json" = "tasks.bak" := by
  obtain ⟨pe, store, bk, bw, sc⟩ := fs
  obtain rfl : store = .file c := hstore
  have hload : load_tasks ⟨pe, .file c, bk, bw, sc⟩ =
      ([], create_backup ⟨pe, .file c, bk, bw, sc⟩) := by
    cases c with
    | raw s => rfl
    | json j =>
      cases j with
      | arr items => simp [Content.badShape] at hbad
      | null => rfl
      | bool b => rfl
      | num n => rfl
      | str s => rfl
      | obj fields => rfl
  rw [hload]
  cases bw
  · exact ⟨rfl, fun h => Bool.noConfusion h, fun h => rfl, rfl, withSuffixBak_tasks_json⟩
  · exact ⟨rfl, fun h => rfl, fun h => Bool.noConfusion h, rfl, withSuffixBak_tasks_json⟩

theorem fromDictList_error_of_mem {items : List Json} {x : Json} (hx : x ∈ items)
    (he : ∃ e, Task.from_dict x = .error e) :
    ∃ e, fromDictList items = .error e := by
  induction items with
  | nil => cases hx
  | cons a rest ih =>
    rcases List.mem_cons.mp hx with rfl | hmem
    · obtain ⟨e, hea⟩ := he
      exact ⟨e, by rw [fromDictList, hea]⟩
    · rw [fromDictList]
      cases hfa : Task.from_dict a with
      | error e => exact ⟨e, rfl⟩
      | ok t =>
        obtain ⟨e, hrest⟩ := ih hmem
        rw [hrest]
        exact ⟨e, rfl⟩

/-- C4: decoding a sequence store file: an element carrying `description`
but no `completed` decodes to a task with `completed = false`; the spec's
example file `[{"description": "buy milk"}]` loads as exactly one such
task; and an element missing `description` is a fatal decode error for the
load, which then backs the file up and starts empty. -/
theorem decode_defaults_completed_requires_description :
    (∀ (fields : List (String × Json)) (d : Json),
      fields.lookup "description" = some d →
      fields.lookup "completed" = none →
      Task.from_dict (.obj fields) = .ok ⟨d, .bool false⟩) ∧
    load_tasks ⟨true, .file (.json (.arr [.obj [("description", .str "buy milk")]])),
                .absent, true, 0⟩ =
      ([⟨.str "buy milk", .bool false⟩],
       ⟨true, .file (.json (.arr [.obj [("description", .str "buy milk")]])),
        .absent, true, 0⟩) ∧
    (∀ (fs : FS) (items : List Json) (x : Json) (fields : List (String × Json))
       (c : Content),
      fs.store = .file c → c = .json (.arr items) → fs.backupWritable = true →
      x ∈ items → x = .obj fields → fields.lookup "description" = none →
      load_tasks fs = ([], { fs with backup := .file c })) := by
  refine ⟨fun fields d h1 h2 => ?_, rfl, fun fs items x fields c hstore hc hw hx hobj hlook => ?_⟩
  · rw [Task.from_dict, h1, h2]
    rfl
  · obtain ⟨pe, store, bk, bw, sc⟩ := fs
    obtain rfl : c = .json (.arr items) := hc
    obtain rfl : store = .file (.json (.arr items)) := hstore
    obtain rfl : bw = true := hw
    obtain ⟨e, herr⟩ : ∃ e, fromDictList items = .error e := by
      refine fromDictList_error_of_mem hx ⟨.keyError, ?_⟩
      subst hobj
      rw [Task.from_dict, hlook]
    simp only [load_tasks, herr]
    rfl

/-- Witness for C4: the no-`completed` element decodes with a false flag,
and a file whose only element lacks `description` loads empty with a
backup. -/
theorem decode_defaults_completed_requires_description_witness :
    Task.from_dict (.obj [("description", .str "buy milk")]) =
      .ok ⟨.str "buy milk", .bool false⟩ ∧
    load_tasks ⟨true, .file (.json (.arr [.obj [("priority", .num 1)]])), .absent, true, 0⟩ =
      ([], ⟨true, .file (.json (.arr [.obj [("priority", .num 1)]])),
            .file (.json (.arr [.obj [("priority", .num 1)]])), true, 0⟩) := by
  have h := decode_defaults_completed_requires_description
  exact ⟨h.1 [("description", .str "buy milk")] (.str "buy milk") rfl rfl,
         h.2.2 ⟨true, .file (.json (.arr [.obj [("priority", .num 1)]])), .absent, true, 0⟩
           [.obj [("priority", .num 1)]] (.obj [("priority", .num 1)])
           [("priority", .num 1)] (.json (.arr [.obj [("priority", .num 1)]]))
           rfl rfl rfl (List.mem_singleton.mpr rfl) rfl rfl⟩

theorem from_dict_to_dict (t : Task) : Task.from_dict t.to_dict = .ok t := rfl

theorem fromDictList_map_to_dict (ts : List Task) :
    fromDictList (ts.map Task.to_dict) = .ok ts := by
  induction ts with
  | nil => rfl
  | cons t rest ih => rw [List.map_cons, fromDictList, from_dict_to_dict, ih]

/-- C5: round-trip — serializing any in-memory list with `save_tasks` and
parsing the written content back with the load decoding yields the same
sequence of tasks, element by element. -/
theorem save_load_roundtrip (ts : List Task) (fs : FS)
    (hp : fs.parentExists = true) (hnd : fs.store ≠ .dir) :
    (load_tasks (save_tasks fs (some ts))).1 = ts := by
  obtain ⟨pe, store, bk, bw, sc⟩ := fs
  obtain rfl : pe = true := hp
  have hsave : save_tasks ⟨true, store, bk, bw, sc⟩ (some ts) =
      ⟨true, .file (.json (.arr (ts.map Task.to_dict))), bk, bw, sc + 1⟩ := by
    cases store with
    | dir => exact absurd rfl hnd
    | absent => rfl
    | file c => rfl
  rw [hsave]
  simp only [load_tasks, fromDictList_map_to_dict]

/-- Witness for C5 on a concrete two-task list. -/
theorem save_load_roundtrip_witness :
    (load_tasks (save_tasks ⟨true, .absent, .absent, true, 0⟩
        (some [⟨.str "a", .bool false⟩, ⟨.str "b", .bool true⟩]))).1 =
      [⟨.str "a", .bool false⟩, ⟨.str "b", .bool true⟩] :=
  save_load_roundtrip [⟨.str "a", .bool false⟩, ⟨.str "b", .bool true⟩]
    ⟨true, .absent, .absent, true, 0⟩ rfl (fun h => nomatch h)

/-- C6 counterexample: loading a store file whose element carries the
description `" x "` puts a task with untrimmed description into the
in-memory list, so the invariant does not hold for tasks entering by load. -/
theorem load_breaks_description_invariant :
    (load_tasks ⟨true, .file (.json (.arr [.obj [("description", .str " x ")]])),
                 .absent, true, 0⟩).1 =
      [⟨.str " x ", .bool false⟩] ∧
    goodDescription ⟨.str " x ", .bool false⟩ = false := ⟨rfl, rfl⟩

theorem pyStrip_idempotent (s : String) : pyStrip (pyStrip s) = pyStrip s := by
  have key : ∀ l : List Char,
      (((l.dropWhile Char.isWhitespace).rdropWhile Char.isWhitespace).dropWhile
          Char.isWhitespace).rdropWhile Char.isWhitespace =
        (l.dropWhile Char.isWhitespace).rdropWhile Char.isWhitespace := by
    intro l
    have hdx : (l.dropWhile Char.isWhitespace).dropWhile Char.isWhitespace =
        l.dropWhile Char.isWhitespace := List.dropWhile_idempotent _ _
    have hpre : (l.dropWhile Char.isWhitespace).rdropWhile Char.isWhitespace <+:
        l.dropWhile Char.isWhitespace := List.rdropWhile_prefix _ _
    have hdy : ((l.dropWhile Char.isWhitespace).rdropWhile Char.isWhitespace).dropWhile
        Char.isWhitespace = (l.dropWhile Char.isWhitespace).rdropWhile Char.isWhitespace := by
      rw [List.dropWhile_eq_self_iff]
      intro hl
      have hxl : 0 < (l.dropWhile Char.isWhitespace).length :=
        lt_of_lt_of_le hl hpre.length_le
      have hhead := hpre.getElem (n := 0) hl
      rw [List.get_eq_getElem, hhead]
      have := List.dropWhile_eq_self_iff.mp hdx hxl
      rw [List.get_eq_getElem] at this
      exact this
    rw [hdy, List.rdropWhile_idempotent]
  exact congrArg String.mk (key s.data)

/-- C6 amended: every task entering the list through `add_task` satisfies
the description invariant, and `add_task` preserves it; tasks entering
through `load_tasks` carry the file's description verbatim and need not. -/
theorem add_preserves_description_invariant (st : Tracker) (d : String)
    (h : ∀ t ∈ st.tasks, goodDescription t = true) :
    ∀ t ∈ (add_task st d).tasks, goodDescription t = true := by
  intro t ht
  by_cases hd : pyStrip d = ""
  · rw [add_task, if_pos hd] at ht
    exact h t ht
  · rw [add_task, if_neg hd] at ht
    rcases List.mem_append.mp ht with hmem | hmem
    · exact h t hmem
    · obtain rfl := List.mem_singleton.mp hmem
      show (!(pyStrip d).isEmpty && (pyStrip (pyStrip d) == pyStrip d)) = true
      rw [pyStrip_idempotent, beq_self_eq_true, Bool.and_true, Bool.not_eq_true']
      cases hE : (pyStrip d).isEmpty
      · rfl
      · exact absurd ((String.isEmpty_iff _).mp hE) hd

/-- Witness for C6's amended claim: adding `" hi "` to a state satisfying
the invariant keeps every description non-empty and stripped. -/
theorem add_preserves_description_invariant_witness :
    ((add_task ⟨[⟨.str "a", .bool false⟩], ⟨true, .absent, .absent, true, 0⟩⟩
        " hi ").tasks.all goodDescription) = true :=
  List.all_eq_true.mpr
    (add_preserves_description_invariant
      ⟨[⟨.str "a", .bool false⟩], ⟨true, .absent, .absent, true, 0⟩⟩ " hi "
      (by intro t ht; obtain rfl := List.mem_singleton.mp ht; rfl))

/-- C8: removing a valid index deletes exactly that task: the length drops
by exactly one, every task before position `i` keeps its place, every task
formerly at a position greater than `i` moves to its former index minus
one, and removing the only task yields the empty list. -/
theorem remove_task_shifts_down (st : Tracker) (i : Int)
    (h1 : 1 ≤ i) (h2 : i ≤ (st.tasks.length : Int)) :
    (remove_task st i).tasks.length = st.tasks.length - 1 ∧
    (∀ k : Nat, k < i.toNat - 1 → (remove_task st i).tasks[k]? = st.tasks[k]?) ∧
    (∀ k : Nat, i.toNat ≤ k → k < st.tasks.length →
      (remove_task st i).tasks[k - 1]? = st.tasks[k]?) ∧
    (st.tasks.length = 1 → (remove_task st i).tasks = []) := by
  have hne : st.tasks ≠ [] := by
    intro h0
    rw [h0] at h2
    simp only [List.length_nil, Nat.cast_zero] at h2
    omega
  have he : st.tasks.isEmpty = false := by
    cases hts : st.tasks with
    | nil => exact absurd hts hne
    | cons a l => rfl
  have hk : i.toNat - 1 < st.tasks.length := by omega
  have hrm : remove_task st i =
      ⟨st.tasks.eraseIdx (i.toNat - 1),
       save_tasks st.fs (some (st.tasks.eraseIdx (i.toNat - 1)))⟩ := by
    rw [remove_task, if_neg (by simp [he]), if_neg (by omega)]
  refine ⟨?_, ?_, ?_, ?_⟩
  · rw [hrm]
    exact List.length_eraseIdx_of_lt hk
  · intro k hklt
    rw [hrm]
    exact List.getElem?_eraseIdx_of_lt _ _ _ hklt
  · intro k hge hkl
    rw [hrm]
    have hstep : (st.tasks.eraseIdx (i.toNat - 1))[k - 1]? = st.tasks[(k - 1) + 1]? :=
      List.getElem?_eraseIdx_of_ge _ _ _ (by omega)
    rw [hstep]
    congr 1
    omega
  · intro hlen1
    rw [hrm]
    exact List.eraseIdx_eq_nil.mpr (Or.inr ⟨hlen1, by omega⟩)

/-- Witness for C8 on the sample state: removing task 1 shortens the list
and shifts the former task 2 to position 1. -/
theorem remove_task_shifts_down_witness :
    (remove_task sampleTracker 1).tasks.length = sampleTracker.tasks.length - 1 ∧
    (remove_task sampleTracker 1).tasks[0]? = sampleTracker.tasks[1]? := by
  have h := remove_task_shifts_down sampleTracker 1 (by decide) (by decide)
  exact ⟨h.1, h.2.2.1 1 (by decide) (by decide)⟩

theorem snd_mem_of_mem_enumFrom {l : List Task} {n : Nat} {p : Nat × Task}
    (h : p ∈ l.enumFrom n) : p.2 ∈ l := by
  induction l generalizing n with
  | nil => cases h
  | cons a t ih =>
    rw [List.enumFrom_cons] at h
    rcases List.mem_cons.mp h with rfl | hmem
    · exact List.mem_cons_self _ _
    · exact List.mem_cons_of_mem _ (ih hmem)

/-- C9: on a non-empty list whose completed flags are booleans, the
in-progress listing is exactly the rows of enumerate-from-1 whose flag is
`false`, in list order and keeping each task's original 1-based index; on
the spec's 3-task example (only task 2 completed) it yields tasks 1 and 3
with indices 1 and 3. -/
theorem in_progress_tasks_keeps_indices (tasks : List Task)
    (hne : tasks ≠ [])
    (hb : ∀ t ∈ tasks, ∃ b : Bool, t.completed = .bool b) :
    in_progress_tasks tasks =
      (tasks.enumFrom 1).filter (fun p => isFalseFlag p.2.completed) ∧
    in_progress_tasks
        [⟨.str "t1", .bool false⟩, ⟨.str "t2", .bool true⟩, ⟨.str "t3", .bool false⟩] =
      [(1, ⟨.str "t1", .bool false⟩), (3, ⟨.str "t3", .bool false⟩)] := by
  refine ⟨?_, rfl⟩
  unfold in_progress_tasks
  apply List.filter_congr
  intro p hp
  obtain ⟨b, hbp⟩ := hb p.2 (snd_mem_of_mem_enumFrom hp)
  rw [hbp]
  cases b <;> rfl

/-- Witness for C9 on the spec's 3-task example. -/
theorem in_progress_tasks_keeps_indices_witness :
    in_progress_tasks
        [⟨.str "t1", .bool false⟩, ⟨.str "t2", .bool true⟩, ⟨.str "t3", .bool false⟩] =
      ([⟨.str "t1", .bool false⟩, ⟨.str "t2", .bool true⟩,
        ⟨.str "t3", .bool false⟩].enumFrom 1).filter
        (fun p => isFalseFlag p.2.completed) :=
  (in_progress_tasks_keeps_indices
    [⟨.str "t1", .bool false⟩, ⟨.str "t2", .bool true⟩, ⟨.str "t3", .bool false⟩]
    (List.cons_ne_nil _ _)
    (by
      intro t ht
      rcases List.mem_cons.mp ht with rfl | ht
      · exact ⟨false, rfl⟩
      rcases List.mem_cons.mp ht with rfl | ht
      · exact ⟨true, rfl⟩
      rcases List.mem_cons.mp ht with rfl | ht
      · exact ⟨false, rfl⟩
      · cases ht)).1

/-- C3: each mutating operation either performs its mutation and calls
`save_tasks` exactly once (success), or leaves the whole tracker state —
in-memory list and file system, save counter included — unchanged
(rejected precondition: description empty after stripping, empty list, or
index outside `[1, len]`). -/
theorem mutators_save_once_or_reject (st : Tracker) (d : String) (i : Int) :
    (pyStrip d ≠ "" →
      (add_task st d).tasks = st.tasks ++ [⟨.str (pyStrip d), .bool false⟩] ∧
      (add_task st d).fs.saveCalls = st.fs.saveCalls + 1) ∧
    (pyStrip d = "" → add_task st d = st) ∧
    (st.tasks ≠ [] → 1 ≤ i → i ≤ (st.tasks.length : Int) →
      (complete_task st i).tasks =
        st.tasks.set (i.toNat - 1)
          ⟨(st.tasks.getD (i.toNat - 1) ⟨.null, .null⟩).description, .bool true⟩ ∧
      (complete_task st i).fs.saveCalls = st.fs.saveCalls + 1) ∧
    (st.tasks = [] ∨ i < 1 ∨ (st.tasks.length : Int) < i → complete_task st i = st) ∧
    (st.tasks ≠ [] → 1 ≤ i → i ≤ (st.tasks.length : Int) →
      (remove_task st i).tasks = st.tasks.eraseIdx (i.toNat - 1) ∧
      (remove_task st i).fs.saveCalls = st.fs.saveCalls + 1) ∧
    (st.tasks = [] ∨ i < 1 ∨ (st.tasks.length : Int) < i → remove_task st i = st) := by
  obtain ⟨ts, fs⟩ := st
  refine ⟨fun h => ?_, fun h => ?_, fun h1 h2 h3 => ?_, fun h => ?_,
          fun h1 h2 h3 => ?_, fun h => ?_⟩
  · rw [add_task, if_neg h]
    exact ⟨rfl, saveCalls_save_tasks _ _⟩
  · rw [add_task, if_pos h]
  · have he : ts.isEmpty = false := by
      cases ts with
      | nil => cases h1 rfl
      | cons a l => rfl
    rw [complete_task, if_neg (by simp [he]), if_neg (by omega)]
    exact ⟨rfl, saveCalls_save_tasks _ _⟩
  · rcases h with h | h | h
    · subst h
      rfl
    all_goals
      rw [complete_task]
      split
      · rfl
      · rw [if_pos (by omega)]
  · have he : ts.isEmpty = false := by
      cases ts with
      | nil => cases h1 rfl
      | cons a l => rfl
    rw [remove_task, if_neg (by simp [he]), if_neg (by omega)]
    exact ⟨rfl, saveCalls_save_tasks _ _⟩
  · rcases h with h | h | h
    · subst h
      rfl
    all_goals
      rw [remove_task]
      split
      · rfl
      · rw [if_pos (by omega)]

theorem getD_set_self {l : List Task} {k : Nat} {a : Task} (h : k < l.length) :
    (l.set k a).getD k ⟨.null, .null⟩ = a := by
  rw [List.getD_eq_getElem?_getD, List.getElem?_set_self h]
  rfl

theorem getD_set_ne {l : List Task} {k j : Nat} {a : Task} (h : k ≠ j) :
    (l.set k a).getD j ⟨.null, .null⟩ = l.getD j ⟨.null, .null⟩ := by
  rw [List.getD_eq_getElem?_getD, List.getElem?_set_ne h, ← List.getD_eq_getElem?_getD]

theorem save_tasks_twice (fs : FS) (ts : List Task) :
    save_tasks (save_tasks fs (some ts)) (some ts) =
      { save_tasks fs (some ts) with saveCalls := (save_tasks fs (some ts)).saveCalls + 1 } := by
  obtain ⟨pe, store, bk, bw, sc⟩ := fs
  cases store <;> cases pe <;> rfl

/-- C7: `complete_task` with an index outside `[1, len]` (or on an empty
list) is rejected and changes nothing; with a valid index it sets exactly
that task's `completed` flag to `True` — every description and every other
task is untouched — and it is idempotent: a second identical call leaves
the task list and the written snapshot equal, differing only in the
instrumentation-level count of save calls. -/
theorem complete_task_sets_exactly_one_flag (st : Tracker) (i : Int) :
    (st.tasks = [] ∨ i < 1 ∨ (st.tasks.length : Int) < i → complete_task st i = st) ∧
    (1 ≤ i → i ≤ (st.tasks.length : Int) →
      (complete_task st i).tasks.length = st.tasks.length ∧
      (∀ j : Nat, j < st.tasks.length →
        ((complete_task st i).tasks.getD j ⟨.null, .null⟩).description =
          (st.tasks.getD j ⟨.null, .null⟩).description) ∧
      ((complete_task st i).tasks.getD (i.toNat - 1) ⟨.null, .null⟩).completed = .bool true ∧
      (∀ j : Nat, j < st.tasks.length → j ≠ i.toNat - 1 →
        (complete_task st i).tasks.getD j ⟨.null, .null⟩ =
          st.tasks.getD j ⟨.null, .null⟩) ∧
      (complete_task (complete_task st i) i).tasks = (complete_task st i).tasks ∧
      (complete_task (complete_task st i) i).fs =
        { (complete_task st i).fs with
            saveCalls := (complete_task st i).fs.saveCalls + 1 }) := by
  constructor
  · intro h
    rcases h with h | h | h
    · rw [complete_task, if_pos (by rw [h]; rfl)]
    all_goals
      rw [complete_task]
      split
      · rfl
      · rw [if_pos (by omega)]
  · intro h1 h2
    have hne : st.tasks ≠ [] := by
      intro h0
      rw [h0] at h2
      simp only [List.length_nil, Nat.cast_zero] at h2
      omega
    have he : st.tasks.isEmpty = false := by
      cases hts : st.tasks with
      | nil => exact absurd hts hne
      | cons a l => rfl
    have hk : i.toNat - 1 < st.tasks.length := by omega
    have hcomp : complete_task st i =
        ⟨st.tasks.set (i.toNat - 1)
           ⟨(st.tasks.getD (i.toNat - 1) ⟨.null, .null⟩).description, .bool true⟩,
         save_tasks st.fs (some (st.tasks.set (i.toNat - 1)
           ⟨(st.tasks.getD (i.toNat - 1) ⟨.null, .null⟩).description, .bool true⟩))⟩ := by
      rw [complete_task, if_neg (by simp [he]), if_neg (by omega)]
    have hlen : (complete_task st i).tasks.length = st.tasks.length := by
      rw [hcomp]
      exact List.length_set st.tasks _ _
    have he' : (complete_task st i).tasks.isEmpty = false := by
      cases hts : (complete_task st i).tasks with
      | nil =>
        have := hlen
        rw [hts] at this
        simp only [List.length_nil] at this
        omega
      | cons a l => rfl
    have hgetD : (complete_task st i).tasks.getD (i.toNat - 1) ⟨.null, .null⟩ =
        ⟨(st.tasks.getD (i.toNat - 1) ⟨.null, .null⟩).description, .bool true⟩ := by
      rw [hcomp]
      exact getD_set_self hk
    have hB : (⟨((complete_task st i).tasks.getD (i.toNat - 1)
          ⟨.null, .null⟩).description, .bool true⟩ : Task) =
        ⟨(st.tasks.getD (i.toNat - 1) ⟨.null, .null⟩).description, .bool true⟩ := by
      rw [hgetD]
    have hcomp2 : complete_task (complete_task st i) i =
        ⟨(complete_task st i).tasks.set (i.toNat - 1)
           ⟨((complete_task st i).tasks.getD (i.toNat - 1)
              ⟨.null, .null⟩).description, .bool true⟩,
         save_tasks (complete_task st i).fs
           (some ((complete_task st i).tasks.set (i.toNat - 1)
             ⟨((complete_task st i).tasks.getD (i.toNat - 1)
                ⟨.null, .null⟩).description, .bool true⟩))⟩ := by
      rw [complete_task]
      rw [if_neg (by simp [he']), if_neg (by rw [hlen]; omega)]
    have htasks2 : (complete_task (complete_task st i) i).tasks =
        (complete_task st i).tasks := by
      rw [hcomp2, hB, hcomp]
      show (st.tasks.set (i.toNat - 1) _).set (i.toNat - 1) _ = st.tasks.set (i.toNat - 1) _
      exact List.set_set _ _ _ _
    have hfs2 : (complete_task (complete_task st i) i).fs =
        { (complete_task st i).fs with saveCalls := (complete_task st i).fs.saveCalls + 1 } := by
      rw [hcomp2, hB, hcomp]
      show save_tasks (save_tasks st.fs _) (some ((st.tasks.set (i.toNat - 1) _).set (i.toNat - 1) _)) = _
      rw [List.set_set]
      exact save_tasks_twice st.fs _
    refine ⟨hlen, ?_, ?_, ?_, htasks2, hfs2⟩
    · intro j hj
      by_cases hjk : j = i.toNat - 1
      · subst hjk
        rw [hgetD]
      · rw [hcomp]
        rw [getD_set_ne fun hEq => hjk hEq.symm]
    · rw [hgetD]
    · intro j hj hjk
      rw [hcomp]
      exact getD_set_ne fun hEq => hjk hEq.symm

/-- Witness for C7: on the sample state, completing task 1 flips exactly
its flag, and completing task 5 is rejected. -/
theorem complete_task_sets_exactly_one_flag_witness :
    complete_task sampleTracker 5 = sampleTracker ∧
    ((complete_task sampleTracker 1).tasks.getD 0 ⟨.null, .null⟩).completed = .bool true ∧
    (complete_task sampleTracker 1).tasks.getD 1 ⟨.null, .null⟩ =
      sampleTracker.tasks.getD 1 ⟨.null, .null⟩ ∧
    (complete_task (complete_task sampleTracker 1) 1).tasks =
      (complete_task sampleTracker 1).tasks := by
  have h := complete_task_sets_exactly_one_flag sampleTracker 5
  have h1 := complete_task_sets_exactly_one_flag sampleTracker 1
  have hv := h1.2 (by decide) (by decide)
  exact ⟨h.1 (Or.inr (Or.inr (by decide))), hv.2.2.1,
         hv.2.2.2.1 1 (by decide) (by decide), hv.2.2.2.2.1⟩

/-- Witness for C3: concrete accepted and rejected calls of all three
mutators on the sample state. -/
theorem mutators_save_once_or_reject_witness :
    ((add_task sampleTracker " hi ").tasks =
       sampleTracker.tasks ++ [⟨.str (pyStrip " hi "), .bool false⟩] ∧
     (add_task sampleTracker " hi ").fs.saveCalls = sampleTracker.fs.saveCalls + 1) ∧
    add_task sampleTracker "   " = sampleTracker ∧
    (complete_task sampleTracker 2).fs.saveCalls = sampleTracker.fs.saveCalls + 1 ∧
    complete_task sampleTracker 3 = sampleTracker ∧
    (remove_task sampleTracker 1).tasks = sampleTracker.tasks.eraseIdx 0 ∧
    remove_task sampleTracker 0 = sampleTracker := by
  have h2 := mutators_save_once_or_reject sampleTracker " hi " 2
  have h3 := mutators_save_once_or_reject sampleTracker "   " 3
  have h1 := mutators_save_once_or_reject sampleTracker "x" 1
  have h0 := mutators_save_once_or_reject sampleTracker "x" 0
  have hne : sampleTracker.tasks ≠ [] := List.cons_ne_nil _ _
  refine ⟨h2.1 (by decide), h3.2.1 (by decide),
          (h2.2.2.1 hne (by decide) (by decide)).2,
          h3.2.2.2.1 (Or.inr (Or.inr (by decide))),
          (h1.2.2.2.2.1 hne (by decide) (by decide)).1,
          h0.2.2.2.2.2 (Or.inr (Or.inl (by decide)))⟩

/-- Witness for C2 at the spec's own example, the JSON string
`"not a json array"`. -/
theorem load_bad_content_resets_and_backs_up_witness :
    (load_tasks ⟨true, .file (.json (.str "not a json array")), .absent, true, 0⟩).1 = [] ∧
    (load_tasks ⟨true, .file (.json (.str "not a json array")), .absent, true, 0⟩).2 =
      { (⟨true, .file (.json (.str "not a json array")), .absent, true, 0⟩ : FS) with
          backup := .file (.json (.str "not a json array")) } ∧
    (load_tasks ⟨true, .file (.json (.str "not a json array")), .absent, true, 0⟩).2.store =
      .file (.json (.str "not a json array")) ∧
    withSuffixBak "tasks.json" = "tasks.bak" := by
  have h := load_bad_content_resets_and_backs_up
    ⟨true, .file (.json (.str "not a json array")), .absent, true, 0⟩
    (.json (.str "not a json array")) rfl rfl
  exact ⟨h.1, h.2.1 rfl, h.2.2.2.1, h.2.2.2.2⟩

end TaskStore

namespace GithubActivity

theorem getItem_eq_ok_of_getKey {j : Json} {k : String} {v : Json}
    (h : j.getKey k = some v) : getItem j k = .ok v := by
  cases j with
  | obj fields =>
    simp only [Json.getKey] at h
    rw [getItem, h]
  | null => exact Option.noConfusion h
  | bool b => exact Option.noConfusion h
  | num n => exact Option.noConfusion h
  | str s => exact Option.noConfusion h
  | arr xs => exact Option.noConfusion h

/-- C10: for every event record carrying the required payload fields,
`format_event` returns the line of the type-keyed mapping table, and the
caller formats at most the first 10 events of the fetched sequence. -/
theorem format_event_table (event : Json) (repoName : String)
    (hrepo : (event.getKey "repo").bind (fun r => r.getKey "name") =
      some (.str repoName)) :
    (event.getKey "type" = some (.str "PushEvent") →
      format_event event = .ok ("Pushed to " ++ repoName)) ∧
    (∀ (n : Int) (action : String),
      event.getKey "type" = some (.str "IssuesEvent") →
      (event.getKey "payload").bind (fun p => p.getKey "action") =
        some (.str action) →
      (event.getKey "payload").bind
          (fun p => (p.getKey "issue").bind (fun iss => iss.getKey "number")) =
        some (.num n) →
      format_event event = .ok
        ((if action = "opened" then "Opened"
          else if action = "closed" then "Closed"
          else pyCapitalize action) ++ " issue #" ++ toString n ++ " in " ++ repoName)) ∧
    (∀ n : Int,
      event.getKey "type" = some (.str "IssueCommentEvent") →
      (event.getKey "payload").bind
          (fun p => (p.getKey "issue").bind (fun iss => iss.getKey "number")) =
        some (.num n) →
      format_event event = .ok ("Commented on issue #" ++ toString n ++ " in " ++ repoName)) ∧
    (event.getKey "type" = some (.str "ForkEvent") →
      format_event event = .ok ("Forked " ++ repoName)) ∧
    (event.getKey "type" = some (.str "WatchEvent") →
      format_event event = .ok ("Starred " ++ repoName)) ∧
    (∀ (n : Int) (action : String),
      event.getKey "type" = some (.str "PullRequestEvent") →
      (event.getKey "payload").bind (fun p => p.getKey "action") =
        some (.str action) →
      (event.getKey "payload").bind (fun p => p.getKey "number") = some (.num n) →
      format_event event = .ok
        (pyCapitalize action ++ " pull request #" ++ toString n ++ " in " ++ repoName)) ∧
    ((∀ T ∈ ["PushEvent", "IssuesEvent", "IssueCommentEvent", "ForkEvent",
             "WatchEvent", "PullRequestEvent"],
        optEqStr (event.getKey "type") T = false) →
      format_event event = .ok ("Did something in " ++ repoName)) ∧
    (∀ data : List Json,
      render_events data = (data.take 10).map format_event ∧
      (render_events data).length ≤ 10) := by
  obtain ⟨r, hr, hname⟩ : ∃ r, event.getKey "repo" = some r ∧
      r.getKey "name" = some (.str repoName) := by
    cases hR : event.getKey "repo" with
    | none => rw [hR] at hrepo; cases hrepo
    | some r => rw [hR] at hrepo; exact ⟨r, rfl, hrepo⟩
  have hri : getItem event "repo" = .ok r := getItem_eq_ok_of_getKey hr
  have hni : getItem r "name" = .ok (.str repoName) := getItem_eq_ok_of_getKey hname
  have payloadItems : ∀ (p k : String) (v : Json),
      (event.getKey p).bind (fun q => q.getKey k) = some v →
      ∃ q, getItem event p = .ok q ∧ getItem q k = .ok v := by
    intro p k v h
    cases hP : event.getKey p with
    | none => rw [hP] at h; cases h
    | some q =>
      rw [hP] at h
      exact ⟨q, getItem_eq_ok_of_getKey hP, getItem_eq_ok_of_getKey h⟩
  refine ⟨?_, ?_, ?_, ?_, ?_, ?_, ?_, ?_⟩
  · intro htype
    simp [format_event, hri, hni, htype, optEqStr, eqStr, pyStr]
  · intro n action htype hact hnum
    obtain ⟨p, hp, hpa⟩ := payloadItems "payload" "action" (.str action) hact
    obtain ⟨p', hp', hrest⟩ : ∃ q, getItem event "payload" = .ok q ∧
        (q.getKey "issue").bind (fun iss => iss.getKey "number") = some (.num n) := by
      cases hP : event.getKey "payload" with
      | none => rw [hP] at hnum; cases hnum
      | some q => rw [hP] at hnum; exact ⟨q, getItem_eq_ok_of_getKey hP, hnum⟩
    have hpp : p' = p := by
      rw [hp] at hp'
      exact (Except.ok.inj hp').symm
    rw [hpp] at hrest
    obtain ⟨iss, hiss, hissn⟩ : ∃ iss, p.getKey "issue" = some iss ∧
        iss.getKey "number" = some (.num n) := by
      cases hI : p.getKey "issue" with
      | none => rw [hI] at hrest; cases hrest
      | some iss => rw [hI] at hrest; exact ⟨iss, rfl, hrest⟩
    have hissI : getItem p "issue" = .ok iss := getItem_eq_ok_of_getKey hiss
    have hissnI : getItem iss "number" = .ok (.num n) := getItem_eq_ok_of_getKey hissn
    by_cases ho : action = "opened"
    · subst ho
      simp [format_event, hri, hni, htype, hp, hpa, hissI, hissnI, optEqStr, eqStr, pyStr]
    · by_cases hc : action = "closed"
      · subst hc
        simp [format_event, hri, hni, htype, hp, hpa, hissI, hissnI, optEqStr, eqStr, pyStr]
      · have hbo : (action == "opened") = false := by
          simp [ho]
        have hbc : (action == "closed") = false := by
          simp [hc]
        simp [format_event, hri, hni, htype, hp, hpa, hissI, hissnI, optEqStr, eqStr,
          pyStr, hbo, hbc, capitalizeVal, ho, hc]
  · intro n htype hnum
    obtain ⟨p, hp, hrest⟩ : ∃ q, getItem event "payload" = .ok q ∧
        (q.getKey "issue").bind (fun iss => iss.getKey "number") = some (.num n) := by
      cases hP : event.getKey "payload" with
      | none => rw [hP] at hnum; cases hnum
      | some q => rw [hP] at hnum; exact ⟨q, getItem_eq_ok_of_getKey hP, hnum⟩
    obtain ⟨iss, hiss, hissn⟩ : ∃ iss, p.getKey "issue" = some iss ∧
        iss.getKey "number" = some (.num n) := by
      cases hI : p.getKey "issue" with
      | none => rw [hI] at hrest; cases hrest
      | some iss => rw [hI] at hrest; exact ⟨iss, rfl, hrest⟩
    have hissI : getItem p "issue" = .ok iss := getItem_eq_ok_of_getKey hiss
    have hissnI : getItem iss "number" = .ok (.num n) := getItem_eq_ok_of_getKey hissn
    simp [format_event, hri, hni, htype, hp, hissI, hissnI, optEqStr, eqStr, pyStr]
  · intro htype
    simp [format_event, hri, hni, htype, optEqStr, eqStr, pyStr]
  · intro htype
    simp [format_event, hri, hni, htype, optEqStr, eqStr, pyStr]
  · intro n action htype hact hnum
    obtain ⟨p, hp, hpa⟩ := payloadItems "payload" "action" (.str action) hact
    obtain ⟨p', hp', hpn⟩ := payloadItems "payload" "number" (.num n) hnum
    have hpp : p' = p := by
      rw [hp] at hp'
      exact (Except.ok.inj hp').symm
    rw [hpp] at hpn
    simp [format_event, hri, hni, htype, hp, hpa, hpn, optEqStr, eqStr, pyStr,
      capitalizeVal]
  · intro hunk
    have h1 := hunk "PushEvent" (by simp)
    have h2 := hunk "IssuesEvent" (by simp)
    have h3 := hunk "IssueCommentEvent" (by simp)
    have h4 := hunk "ForkEvent" (by simp)
    have h5 := hunk "WatchEvent" (by simp)
    have h6 := hunk "PullRequestEvent" (by simp)
    simp [format_event, hri, hni, h1, h2, h3, h4, h5, h6, pyStr]
  · intro data
    refine ⟨rfl, ?_⟩
    rw [render_events, List.length_map, List.length_take]
    omega

/-- Witness for C10: one concrete event per row of the mapping table, plus
the 10-event cap on a 12-event fetch. -/
theorem format_event_table_witness :
    format_event pushEv = .ok ("Pushed to " ++ "octo/hello") ∧
    format_event issuesEv = .ok
      ((if "reopened" = "opened" then "Opened"
        else if "reopened" = "closed" then "Closed"
        else pyCapitalize "reopened") ++ " issue #" ++ toString (7 : Int) ++
        " in " ++ "octo/hello") ∧
    format_event commentEv = .ok
      ("Commented on issue #" ++ toString (3 : Int) ++ " in " ++ "octo/hello") ∧
    format_event forkEv = .ok ("Forked " ++ "octo/hello") ∧
    format_event watchEv = .ok ("Starred " ++ "octo/hello") ∧
    format_event prEv = .ok
      (pyCapitalize "opened" ++ " pull request #" ++ toString (5 : Int) ++
        " in " ++ "octo/hello") ∧
    format_event unknownEv = .ok ("Did something in " ++ "octo/hello") ∧
    (render_events (List.replicate 12 pushEv)).length ≤ 10 := by
  refine ⟨(format_event_table pushEv "octo/hello" rfl).1 rfl,
          (format_event_table issuesEv "octo/hello" rfl).2.1 7 "reopened" rfl rfl rfl,
          (format_event_table commentEv "octo/hello" rfl).2.2.1 3 rfl rfl,
          (format_event_table forkEv "octo/hello" rfl).2.2.2.1 rfl,
          (format_event_table watchEv "octo/hello" rfl).2.2.2.2.1 rfl,
          (format_event_table prEv "octo/hello" rfl).2.2.2.2.2.1 5 "opened" rfl rfl rfl,
          (format_event_table unknownEv "octo/hello" rfl).2.2.2.2.2.2.1 (by decide),
          ((format_event_table pushEv "octo/hello" rfl).2.2.2.2.2.2.2
            (List.replicate 12 pushEv)).2⟩

end GithubActivity
